import Mathlib

/-
Verification development for the sharkfuser (Fusilli) graph library.

The definitions below are a shallow embedding of the C++ sources under
src/sharkfuser.  Pure functions are translated to Lean functions; stateful
methods become explicit state passing on a `Graph` record; fallible code
returns `Except`.  Filesystem access performed by the cache layer is
modelled by an explicit map from cache paths to file contents.

Parts of the repository that are referenced from the sources in scope but
whose own files are not in scope (the cache file helpers, the tensor
attribute record, the node base class dispatch, and the assembly emitter
body) are modelled from the specification; each such definition carries a
doc comment starting with "Modelled from the spec:".
-/

set_option maxHeartbeats 1000000

namespace Fusilli

/-- Error kinds of the library, from the error handling design. -/
inductive ErrorCode where
  | OK
  | AttributeNotSet
  | InvalidAttribute
  | NotValidated
  | CompileFailure
  | RuntimeFailure
  | NotImplemented
  deriving DecidableEq

/-- Result carrier payload: an error kind together with a message. -/
structure FusilliError where
  code : ErrorCode
  msg : String
  deriving DecidableEq

/-- Result carrier for value-returning operations (ErrorOr in the source). -/
abbrev ErrorOr (α : Type) := Except FusilliError α

/-- Result carrier for operations returning no value (ErrorObject in the source). -/
abbrev ErrorObject := Except FusilliError Unit

/-- Element types, from fusilli/attributes/types.h. -/
inductive DataType where
  | NotSet
  | Half
  | BFloat16
  | Float
  | Double
  | Uint8
  | Int8
  | Int16
  | Int32
  | Int64
  | Boolean
  | FP8E5M2
  deriving DecidableEq

/-- Target backends, from fusilli/backend/backend.h. -/
inductive Backend where
  | CPU
  | GFX942
  deriving DecidableEq

/-- Map from backend to iree-compile flags, from fusilli/backend/backend.h. -/
def backendFlags : Backend → List String
  | .CPU =>
    ["--iree-hal-target-backends=llvm-cpu",
     "--iree-llvmcpu-target-cpu=host"]
  | .GFX942 =>
    ["--iree-hal-target-backends=rocm",
     "--iree-hip-target=gfx942",
     "--iree-opt-level=O3"]

/-- Modelled from the spec: fusilli/support/cache.h is not under src/.  A
canonical cache path is determined by the graph name (one directory per graph
name) and a fixed base file name, so it is embedded as the pair of both. -/
structure CachePath where
  graphName : String
  fileName : String
  deriving DecidableEq

/-- Rendering of a cache path on the command line. -/
def CachePath.render (p : CachePath) : String :=
  p.graphName ++ "/" ++ p.fileName

/-- Filesystem contents visible to the cache layer: file contents by path. -/
abbrev FS := CachePath → Option String

/-- Modelled from the spec: a CacheFile carries a canonical filesystem path and
an optional remove-on-destruction flag. -/
structure CacheFile where
  path : CachePath
  remove : Bool
  deriving DecidableEq

/-- Modelled from the spec: the canonical path for a cache file of a graph. -/
def CacheFile.getPath (graphName fileName : String) : CachePath :=
  ⟨graphName, fileName⟩

/-- Modelled from the spec: creating a cache file establishes its canonical
path on disk (an existing file is kept). -/
def CacheFile.create (graphName fileName : String) (remove : Bool) (fs : FS) :
    CacheFile × FS :=
  let p := CacheFile.getPath graphName fileName
  (⟨p, remove⟩, fun q => if q = p then some ((fs p).getD "") else fs q)

/-- Modelled from the spec: opening a cache file fails when the file does not
exist at the canonical path. -/
def CacheFile.openFile (graphName fileName : String) (fs : FS) :
    ErrorOr CacheFile :=
  match fs (CacheFile.getPath graphName fileName) with
  | some _ => .ok ⟨CacheFile.getPath graphName fileName, false⟩
  | none => .error ⟨.RuntimeFailure, "Cache file does not exist"⟩

/-- Modelled from the spec: reading a cache file returns its contents. -/
def CacheFile.read (f : CacheFile) (fs : FS) : ErrorOr String :=
  match fs f.path with
  | some s => .ok s
  | none => .error ⟨.RuntimeFailure, "Cache file read failed"⟩

/-- Modelled from the spec: writing a cache file replaces its contents. -/
def CacheFile.write (f : CacheFile) (contents : String) (fs : FS) : FS :=
  fun q => if q = f.path then some contents else fs q

/-- Cache record, from the CachedAssets constructor call in graph.h (input,
output and compile command files). -/
structure CachedAssets where
  input : CacheFile
  output : CacheFile
  compileCommand : CacheFile
  deriving DecidableEq

/-- Cache file base names, from the defines at the top of graph.h. -/
def IREE_COMPILE_INPUT_FILENAME : String := "iree-compile-input.mlir"

/-- Cache file base name of the compiled artifact, from graph.h. -/
def IREE_COMPILE_OUTPUT_FILENAME : String := "iree-compile-output.vmfb"

/-- Cache file base name of the compile command, from graph.h. -/
def IREE_COMPILE_COMMAND_FILENAME : String := "iree-compile-command.txt"

/-- Modelled from the spec: fusilli/support/external_tools.h is not under
src/; it supplies the configured path of the external compiler binary. -/
def IREE_COMPILE_PATH : String := "iree-compile"

/-- Space interleaving of a list of strings, the control flow of `interleave`
from fusilli/support/extras.h applied with a space between function. -/
def interleaveSpace : List String → String
  | [] => ""
  | [a] => a
  | a :: b :: rest => a ++ " " ++ interleaveSpace (b :: rest)

/-- Compile command construction, from Graph::buildCompileCommand in graph.h:
compiler binary, input path, backend flags, -o, output path, joined by single
spaces, with a trailing newline. -/
def buildCompileCommand (backend : Backend) (input output : CacheFile) :
    String :=
  interleaveSpace
    ([IREE_COMPILE_PATH, input.path.render] ++ backendFlags backend ++
      ["-o", output.path.render]) ++ "\n"

/-- Modelled from the spec: fusilli/attributes/tensor_attributes.h is not
under src/.  A tensor attribute carries a name, dims, strides, an element
type and the virtual / output flags; builders default everything. -/
structure TensorAttr where
  name : String := ""
  dim : List Int := []
  stride : List Int := []
  dataType : DataType := .NotSet
  isVirtual : Bool := false
  isOutput : Bool := false
  deriving DecidableEq

/-- Builder setting the tensor name. -/
def TensorAttr.setName (t : TensorAttr) (n : String) : TensorAttr :=
  { t with name := n }

/-- Builder setting the virtual flag. -/
def TensorAttr.setIsVirtual (t : TensorAttr) (b : Bool) : TensorAttr :=
  { t with isVirtual := b }

/-- Modelled from the spec: setOutput(true) promotes a tensor to a non-virtual
graph output; it is a TensorAttr builder and touches only the tensor flags. -/
def TensorAttr.setOutput (t : TensorAttr) (b : Bool) : TensorAttr :=
  { t with isOutput := b, isVirtual := !b }

/-- Modelled from the spec: a validated tensor must have a fully specified
name, dim, stride and data type, with dims and strides of equal length. -/
def TensorAttr.validate (t : TensorAttr) : ErrorObject :=
  if t.name = "" then
    .error ⟨.AttributeNotSet, "Tensor name not set"⟩
  else if t.dim = [] then
    .error ⟨.AttributeNotSet, "Tensor dims not set"⟩
  else if t.stride = [] then
    .error ⟨.AttributeNotSet, "Tensor strides not set"⟩
  else if t.dim.length ≠ t.stride.length then
    .error ⟨.InvalidAttribute, "Tensor dims and strides ranks differ"⟩
  else if t.dataType = .NotSet then
    .error ⟨.AttributeNotSet, "Tensor data type not set"⟩
  else
    .ok ()

/-- Modelled from the spec: fusilli/graph/context.h is not under src/.  The
context holds the graph name and the shared default data types. -/
structure Context where
  name : String := ""
  ioDataType : DataType := .NotSet
  computeDataType : DataType := .NotSet
  intermediateDataType : DataType := .NotSet
  deriving DecidableEq

/-- Convolution forward attributes, from the ConvFPropAttr builder surface:
name, stride, padding, dilation and the X / W / Y tensor slots.  Tensors are
shared by identity, embedded as indices into the tensor store of the graph. -/
structure ConvFPropAttr where
  name : String := ""
  stride : List Int := []
  padding : List Int := []
  dilation : List Int := []
  x : Option Nat := none
  w : Option Nat := none
  y : Option Nat := none
  deriving DecidableEq

/-- Convolution forward node: its attributes plus the context captured from
the graph at creation, from Graph::convFProp in graph.h. -/
structure ConvFPropNode where
  attr : ConvFPropAttr
  context : Context
  deriving DecidableEq

/-- Graph state, from the private fields of the Graph class in graph.h.
Tensor objects are shared by identity between the input / output sets and the
node slots, so they live in an identity-indexed store and the sets hold
indices.  The runtime session is reduced to a liveness flag. -/
structure Graph where
  context : Context := {}
  store : List TensorAttr := []
  fullGraphInputs : List Nat := []
  fullGraphOutputs : List Nat := []
  subNodes : List ConvFPropNode := []
  fullGraphInputsSorted : List Nat := []
  fullGraphOutputsSorted : List Nat := []
  isValidated : Bool := false
  cache : Option CachedAssets := none
  session : Bool := false
  deriving DecidableEq

/-- Tensor lookup in the store by identity. -/
def Graph.getTensor (g : Graph) (i : Nat) : TensorAttr :=
  g.store.getD i {}

/-- In-place update of a shared tensor object. -/
def Graph.modifyTensor (g : Graph) (i : Nat) (f : TensorAttr → TensorAttr) :
    Graph :=
  { g with store := g.store.set i (f (g.getTensor i)) }

/-- Graph name getter, from Graph::getName in graph.h. -/
def Graph.getName (g : Graph) : String :=
  g.context.name

/-- Graph name setter, from Graph::setName in graph.h. -/
def Graph.setName (g : Graph) (n : String) : Graph :=
  { g with context := { g.context with name := n } }

/-- Graph IO data type setter, from Graph::setIODataType in graph.h. -/
def Graph.setIODataType (g : Graph) (t : DataType) : Graph :=
  { g with context := { g.context with ioDataType := t } }

/-- Graph compute data type setter, from Graph::setComputeDataType in graph.h. -/
def Graph.setComputeDataType (g : Graph) (t : DataType) : Graph :=
  { g with context := { g.context with computeDataType := t } }

/-- Graph intermediate data type setter, from graph.h. -/
def Graph.setIntermediateDataType (g : Graph) (t : DataType) : Graph :=
  { g with context := { g.context with intermediateDataType := t } }

/-- Input tensor creation, from Graph::tensor in graph.h: a copy of the given
attribute is stored as a fresh shared object and inserted into the full graph
input set; the fresh identity is returned. -/
def Graph.tensor (g : Graph) (t : TensorAttr) : Graph × Nat :=
  ({ g with
      store := g.store ++ [t]
      fullGraphInputs := g.fullGraphInputs ++ [g.store.length] },
   g.store.length)

/-- Output tensor creation, from Graph::outputTensor in graph.h: a fresh
default tensor is named, marked virtual, and inserted into the full graph
output set right away. -/
def Graph.outputTensor (g : Graph) (name : String) : Graph × Nat :=
  let t := TensorAttr.setIsVirtual (TensorAttr.setName {} name) true
  ({ g with
      store := g.store ++ [t]
      fullGraphOutputs := g.fullGraphOutputs ++ [g.store.length] },
   g.store.length)

/-- Mutation of a shared tensor through setOutput, as done by callers of the
builder API on the reference returned by convFProp. -/
def Graph.setTensorOutput (g : Graph) (i : Nat) (b : Bool) : Graph :=
  g.modifyTensor i (fun t => t.setOutput b)

/-- Convolution forward builder, from Graph::convFProp in graph.h: names the
attributes and the unnamed inputs, binds X and W, synthesizes the virtual
output through outputTensor, and appends exactly one node to subNodes. -/
def Graph.convFProp (g : Graph) (x w : Nat) (convAttr : ConvFPropAttr) :
    Graph × Nat :=
  let convAttr :=
    if convAttr.name = "" then
      { convAttr with name := "conv_fprop_" ++ toString g.subNodes.length }
    else convAttr
  let g :=
    if (g.getTensor x).name = "" then
      g.modifyTensor x (fun t => t.setName (convAttr.name ++ "_X"))
    else g
  let g :=
    if (g.getTensor w).name = "" then
      g.modifyTensor w (fun t => t.setName (convAttr.name ++ "_W"))
    else g
  let convAttr := { convAttr with x := some x, w := some w }
  let (g, y) := g.outputTensor (convAttr.name ++ "_Y")
  let convAttr := { convAttr with y := some y }
  ({ g with subNodes := g.subNodes ++ [⟨convAttr, g.context⟩] }, y)

/-- Error message for a duplicated symbol, from Graph::preValidateNode in
graph.h. -/
def dupMsg (n : String) : String :=
  "Symbol name \x27" ++ n ++ "\x27 already in use"

/-- Sequential uniqueness check over symbol names against a set of used
symbols, the loop body of Graph::preValidateNode in graph.h. -/
def checkSymbols (used : List String) : List String → ErrorOr (List String)
  | [] => .ok used
  | n :: rest =>
    if n ∈ used then
      .error ⟨.InvalidAttribute, dupMsg n⟩
    else
      checkSymbols (n :: used) rest

/-- Names of the full graph input tensors, in set iteration order. -/
def Graph.inputNames (g : Graph) : List String :=
  g.fullGraphInputs.map (fun i => (g.getTensor i).name)

/-- Names of the full graph output tensors, in set iteration order. -/
def Graph.outputNames (g : Graph) : List String :=
  g.fullGraphOutputs.map (fun i => (g.getTensor i).name)

/-- Names of the sub-nodes, in insertion order. -/
def Graph.nodeNames (g : Graph) : List String :=
  g.subNodes.map (fun nd => nd.attr.name)

/-- Pre-validation of the graph node, from Graph::preValidateNode in graph.h:
inputs, then outputs, then node names are checked against the accumulated used
symbols.  The node name pass embeds checkNodeNamesAreUnique, which is
modelled from the spec because node.h is not under src/ (all node names are
checked for uniqueness against the used symbols, recursively over the leaf
sub-nodes). -/
def Graph.preValidateNode (g : Graph) : ErrorObject :=
  match checkSymbols [] g.inputNames with
  | .error e => .error e
  | .ok used =>
    match checkSymbols used g.outputNames with
    | .error e => .error e
    | .ok used =>
      match checkSymbols used g.nodeNames with
      | .error e => .error e
      | .ok _ => .ok ()

/-- Convolution forward output extent on one spatial axis, from the shape
formula of the spec. -/
def convOutDim (inD pad dil ker str : Int) : Int :=
  (inD + 2 * pad - dil * (ker - 1) - 1) / str + 1

/-- Pointwise application of the convolution output formula over the spatial
axes. -/
def convOutDims : List Int → List Int → List Int → List Int → List Int →
    List Int
  | i :: is, p :: ps, d :: ds, k :: ks, s :: ss =>
    convOutDim i p d k s :: convOutDims is ps ds ks ss
  | _, _, _, _, _ => []

/-- Contiguous strides of a dim sequence: each stride is the product of the
dims strictly more inner than it. -/
def contiguousStride : List Int → List Int
  | [] => []
  | _ :: rest => rest.foldl (fun a b => a * b) 1 :: contiguousStride rest

/-- Fill of an unset tensor data type from a context default. -/
def fillDataType (t : TensorAttr) (dt : DataType) : TensorAttr :=
  if t.dataType = .NotSet then { t with dataType := dt } else t

/-- Fill of an unset tensor stride as the contiguous stride of its dims. -/
def fillStrideContiguous (t : TensorAttr) : TensorAttr :=
  if t.stride = [] then { t with stride := contiguousStride t.dim } else t

/-- Fill of unset tensor dims from an inferred dim sequence. -/
def fillDim (t : TensorAttr) (d : List Int) : TensorAttr :=
  if t.dim = [] then { t with dim := d } else t

/-- Modelled from the spec: convolution pre-validation requires the tensor
slots to be bound and the stride, padding and dilation sequences to have equal
length 2 or 3 (conv_node.h is not under src/). -/
def ConvFPropNode.preValidate (nd : ConvFPropNode) : ErrorObject :=
  match nd.attr.x, nd.attr.w, nd.attr.y with
  | some _, some _, some _ =>
    if nd.attr.stride.length = nd.attr.padding.length ∧
        nd.attr.stride.length = nd.attr.dilation.length ∧
        (nd.attr.stride.length = 2 ∨ nd.attr.stride.length = 3) then
      .ok ()
    else
      .error ⟨.InvalidAttribute, "Conv spatial attribute ranks invalid"⟩
  | _, _, _ => .error ⟨.AttributeNotSet, "Conv tensor slot not bound"⟩

/-- Modelled from the spec: convolution forward inference fills the unset
output dims from the input and filter dims through the shape formula, unset
strides as contiguous strides, and unset data types from the context defaults
per role (IO type for graph IO, intermediate type for virtual tensors). -/
def ConvFPropNode.inferProperties (nd : ConvFPropNode) (g : Graph) :
    ErrorObject × Graph :=
  match nd.attr.x, nd.attr.w, nd.attr.y with
  | some xi, some wi, some yi =>
    match (g.getTensor xi).dim, (g.getTensor wi).dim with
    | n :: _c :: spatialIn, k :: _fc :: kernel =>
      let outDims :=
        n :: k ::
          convOutDims spatialIn nd.attr.padding nd.attr.dilation kernel
            nd.attr.stride
      let g := g.modifyTensor xi
        (fun t => fillStrideContiguous (fillDataType t nd.context.ioDataType))
      let g := g.modifyTensor wi
        (fun t => fillStrideContiguous (fillDataType t nd.context.ioDataType))
      let g := g.modifyTensor yi (fun t =>
        let t := fillStrideContiguous (fillDim t outDims)
        fillDataType t
          (if t.isVirtual then nd.context.intermediateDataType
           else nd.context.ioDataType))
      (.ok (), g)
    | _, _ => (.error ⟨.AttributeNotSet, "Conv input dims not set"⟩, g)
  | _, _, _ => (.error ⟨.AttributeNotSet, "Conv tensor slot not bound"⟩, g)

/-- Modelled from the spec: convolution post-validation requires fully
specified tensors and the group count (input channels over filter channels)
to divide both channel counts. -/
def ConvFPropNode.postValidate (nd : ConvFPropNode) (g : Graph) :
    ErrorObject :=
  match nd.attr.x, nd.attr.w, nd.attr.y with
  | some xi, some wi, some yi =>
    match (g.getTensor xi).validate with
    | .error e => .error e
    | .ok _ =>
      match (g.getTensor wi).validate with
      | .error e => .error e
      | .ok _ =>
        match (g.getTensor yi).validate with
        | .error e => .error e
        | .ok _ =>
          match (g.getTensor xi).dim, (g.getTensor wi).dim with
          | _ :: c :: _, k :: fc :: _ =>
            if fc ≠ 0 ∧ c % fc = 0 ∧ k % (c / fc) = 0 then .ok ()
            else .error ⟨.InvalidAttribute, "Conv group count invalid"⟩
          | _, _ => .error ⟨.InvalidAttribute, "Conv tensor ranks invalid"⟩
  | _, _, _ => .error ⟨.AttributeNotSet, "Conv tensor slot not bound"⟩

/-- Modelled from the spec: leaf node validation runs pre-validate, property
inference and post-validate in order (node.h is not under src/). -/
def ConvFPropNode.validateSubtree (nd : ConvFPropNode) (g : Graph) :
    ErrorObject × Graph :=
  match nd.preValidate with
  | .error e => (.error e, g)
  | .ok _ =>
    match nd.inferProperties g with
    | (.error e, g) => (.error e, g)
    | (.ok _, g) =>
      match nd.postValidate g with
      | .error e => (.error e, g)
      | .ok _ => (.ok (), g)

/-- Validation of the sub-nodes in insertion order, threading the graph
state mutated by property inference. -/
def validateSubNodes (g : Graph) : List ConvFPropNode → ErrorObject × Graph
  | [] => (.ok (), g)
  | nd :: rest =>
    match nd.validateSubtree g with
    | (.error e, g) => (.error e, g)
    | (.ok _, g) => validateSubNodes g rest

/-- Identity list sorted by the names of the referenced tensors, the order of
the name-sorted tensor sets of graph.h. -/
def Graph.sortIdsByName (g : Graph) (ids : List Nat) : List Nat :=
  ids.mergeSort (fun a b => !decide ((g.getTensor b).name < (g.getTensor a).name))

/-- Property inference of the graph node, from Graph::inferPropertiesNode in
graph.h: the sorted input and output views are populated. -/
def Graph.inferPropertiesNode (g : Graph) : ErrorObject × Graph :=
  (.ok (),
   { g with
      fullGraphInputsSorted := g.sortIdsByName g.fullGraphInputs
      fullGraphOutputsSorted := g.sortIdsByName g.fullGraphOutputs })

/-- Modelled from the spec: the composite node validation dispatch (node.h is
not under src/) runs the graph pre-validate, the sub-node subtrees, the graph
property inference and the graph post-validate in order.  The graph
post-validate returns ok, from Graph::postValidateNode in graph.h. -/
def Graph.validateSubtree (g : Graph) : ErrorObject × Graph :=
  match g.preValidateNode with
  | .error e => (.error e, g)
  | .ok _ =>
    match validateSubNodes g g.subNodes with
    | (.error e, g) => (.error e, g)
    | (.ok _, g) =>
      match g.inferPropertiesNode with
      | (.error e, g) => (.error e, g)
      | (.ok _, g) => (.ok (), g)

/-- Validation of a list of shared tensors, the loops over the full graph
inputs and outputs in Graph::validate in graph.h. -/
def validateTensorList (g : Graph) : List Nat → ErrorObject
  | [] => .ok ()
  | i :: rest =>
    match (g.getTensor i).validate with
    | .error e => .error e
    | .ok _ => validateTensorList g rest

/-- Graph validation, from Graph::validate in graph.h: a non-empty name is
required, the subtree is validated, the inputs and the outputs are validated,
and only then the validated flag is set. -/
def Graph.validate (g : Graph) : ErrorObject × Graph :=
  if g.getName = "" then
    (.error ⟨.AttributeNotSet, "Graph name not set"⟩, g)
  else
    match g.validateSubtree with
    | (.error e, g) => (.error e, g)
    | (.ok _, g) =>
      match validateTensorList g g.fullGraphInputs with
      | .error e => (.error e, g)
      | .ok _ =>
        match validateTensorList g g.fullGraphOutputs with
        | .error e => (.error e, g)
        | .ok _ => (.ok (), { g with isValidated := true })

/-- Comma interleaving of strings, the interleave control flow with a comma
between function. -/
def interleaveComma : List String → String
  | [] => ""
  | [a] => a
  | a :: b :: rest => a ++ ", " ++ interleaveComma (b :: rest)

/-- Textual names of the element types in the emitted dialect. -/
def asmDataTypeName : DataType → String
  | .NotSet => "unk"
  | .Half => "f16"
  | .BFloat16 => "bf16"
  | .Float => "f32"
  | .Double => "f64"
  | .Uint8 => "ui8"
  | .Int8 => "si8"
  | .Int16 => "si16"
  | .Int32 => "si32"
  | .Int64 => "si64"
  | .Boolean => "i1"
  | .FP8E5M2 => "f8E5M2"

/-- Dim sequence rendering with an x separator. -/
def dimsAsm : List Int → String
  | [] => ""
  | [d] => toString d
  | d :: e :: rest => toString d ++ "x" ++ dimsAsm (e :: rest)

/-- Value tensor type rendering of a tensor attribute. -/
def tensorTypeAsm (t : TensorAttr) : String :=
  "tensor<" ++ dimsAsm t.dim ++ "x" ++ asmDataTypeName t.dataType ++ ">"

/-- Function parameter rendering of a tensor attribute. -/
def tensorParamAsm (t : TensorAttr) : String :=
  "%" ++ t.name ++ ": " ++ tensorTypeAsm t

/-- Modelled from the spec: body of a convolution forward node in the emitted
assembly, a function of the node attributes and of the shared tensors it
references. -/
def ConvFPropNode.emitNodeAsm (nd : ConvFPropNode) (g : Graph) : String :=
  match nd.attr.x, nd.attr.w, nd.attr.y with
  | some xi, some wi, some yi =>
    "  %" ++ (g.getTensor yi).name ++ " = convolution(%" ++
      (g.getTensor xi).name ++ ", %" ++ (g.getTensor wi).name ++
      ") stride [" ++ dimsAsm nd.attr.stride ++ "] padding [" ++
      dimsAsm nd.attr.padding ++ "] dilation [" ++ dimsAsm nd.attr.dilation ++
      "] : " ++ tensorTypeAsm (g.getTensor yi) ++ "\n"
  | _, _, _ => ""

/-- Modelled from the spec: the assembly emitter (fusilli/support/asm_emitter.h
is not under src/) is a pure single pass over the graph content: module
header, a main function in destination passing style whose first parameters
are the name-sorted outputs followed by the name-sorted inputs, the node
bodies in insertion order, and the terminator.  The bodies are rendered in a
schematic form of the dialect; only their purity and determinism enter the
claims. -/
def Graph.emitAsmSubtree (g : Graph) : String :=
  let params :=
    interleaveComma
      ((g.fullGraphOutputsSorted ++ g.fullGraphInputsSorted).map
        (fun i => tensorParamAsm (g.getTensor i)))
  "module @module \x7b\n" ++
    "func.func @main(" ++ params ++ ") \x7b\n" ++
    String.join (g.subNodes.map (fun nd => nd.emitNodeAsm g)) ++
    "return\n" ++
    "\x7d\n\x7d\n"

/-- Assembly emission driver, from Graph::emitAsm in graph.h: it requires the
validated flag and writes the subtree emission to a local stream, leaving the
graph state untouched. -/
def Graph.emitAsm (g : Graph) : ErrorOr String × Graph :=
  if g.isValidated = false then
    (.error ⟨.NotValidated,
      "Graph must be validated before emitting MLIR assembly"⟩, g)
  else
    (.ok g.emitAsmSubtree, g)

/-- Cache validity check, from Graph::validateCache in graph.h: miss when the
cache record is absent; miss when any recorded path differs from the canonical
path of the current graph name; then the expected files are opened and a miss
is reported when the stored assembly differs from the generated one or the
stored command differs from the freshly rebuilt one. -/
def Graph.validateCache (g : Graph) (backend : Backend)
    (generatedAsm : String) (fs : FS) : ErrorOr Bool :=
  match g.cache with
  | none => .ok false
  | some c =>
    if c.input.path ≠
        CacheFile.getPath g.getName IREE_COMPILE_INPUT_FILENAME then
      .ok false
    else if c.output.path ≠
        CacheFile.getPath g.getName IREE_COMPILE_OUTPUT_FILENAME then
      .ok false
    else if c.compileCommand.path ≠
        CacheFile.getPath g.getName IREE_COMPILE_COMMAND_FILENAME then
      .ok false
    else
      match CacheFile.openFile g.getName IREE_COMPILE_INPUT_FILENAME fs with
      | .error e => .error e
      | .ok input =>
        match CacheFile.openFile g.getName IREE_COMPILE_OUTPUT_FILENAME fs with
        | .error e => .error e
        | .ok output =>
          match CacheFile.openFile g.getName
              IREE_COMPILE_COMMAND_FILENAME fs with
          | .error e => .error e
          | .ok compileCommand =>
            match input.read fs with
            | .error e => .error e
            | .ok ic =>
              if ic ≠ generatedAsm then
                .ok false
              else
                let cmd := buildCompileCommand backend input output
                match compileCommand.read fs with
                | .error e => .error e
                | .ok cc =>
                  if cc ≠ cmd then .ok false else .ok true

/-- Compiled artifact generation, from Graph::generateCompiledArtifact in
graph.h: the three cache files are created at the canonical paths, the
assembly and the compile command are written, and the external compiler is
invoked; a non-zero exit code yields a CompileFailure.  The external command
execution is modelled by an exit code function of the command line. -/
def generateCompiledArtifact (graphName : String) (backend : Backend)
    (generatedAsm : String) (remove : Bool) (sys : String → Int) (fs : FS) :
    ErrorOr CachedAssets × FS :=
  let (input, fs) :=
    CacheFile.create graphName IREE_COMPILE_INPUT_FILENAME remove fs
  let (output, fs) :=
    CacheFile.create graphName IREE_COMPILE_OUTPUT_FILENAME remove fs
  let (compileCommand, fs) :=
    CacheFile.create graphName IREE_COMPILE_COMMAND_FILENAME remove fs
  let fs := input.write generatedAsm fs
  let cmd := buildCompileCommand backend input output
  let fs := compileCommand.write cmd fs
  if sys cmd ≠ 0 then
    (.error ⟨.CompileFailure, "iree-compile command failed"⟩, fs)
  else
    (.ok ⟨input, output, compileCommand⟩, fs)

/-- Compiled artifact retrieval, from Graph::getCompiledArtifact in graph.h:
on a cache hit the recorded output path is returned and reCompiled is
reported false; otherwise the cache is regenerated and reCompiled is reported
true.  The reported flag is returned next to the output path. -/
def Graph.getCompiledArtifact (g : Graph) (backend : Backend)
    (generatedAsm : String) (remove : Bool) (sys : String → Int) (fs : FS) :
    ErrorOr (CachePath × Bool) × Graph × FS :=
  match g.validateCache backend generatedAsm fs with
  | .error e => (.error e, g, fs)
  | .ok true =>
    (.ok ((g.cache.map (fun c => c.output.path)).getD ⟨"", ""⟩, false), g, fs)
  | .ok false =>
    match generateCompiledArtifact g.getName backend generatedAsm remove
        sys fs with
    | (.error e, fs) => (.error e, g, fs)
    | (.ok c, fs) => (.ok (c.output.path, true), { g with cache := some c }, fs)

/-- Graph compilation, from Graph::compile in graph.h: it requires the
validated flag, emits the assembly, retrieves the compiled artifact, and
creates the per graph runtime session.  Session creation (runtime.h is not
under src/) is modelled from the spec as setting the live session flag. -/
def Graph.compile (g : Graph) (backend : Backend) (remove : Bool)
    (sys : String → Int) (fs : FS) : ErrorObject × Graph × FS :=
  if g.isValidated = false then
    (.error ⟨.NotValidated,
      "Graph must be validated before being compiled"⟩, g, fs)
  else
    match g.emitAsm with
    | (.error e, g) => (.error e, g, fs)
    | (.ok generatedAsm, g) =>
      match g.getCompiledArtifact backend generatedAsm remove sys fs with
      | (.error e, g, fs) => (.error e, g, fs)
      | (.ok _, g, fs) => (.ok (), { g with session := true }, fs)

/-- IREE HAL element types reaching the buffer layer, from the trait map in
backend.h. -/
inductive IreeHalElementType where
  | FLOAT_32
  | FLOAT_16
  | SINT_32
  deriving DecidableEq

/-- Allocation request passed to the IREE buffer view allocation call, from
the argument list of FusilliHandle::allocateBuffer in handle.h. -/
structure AllocRequest where
  rank : Nat
  shape : List Int
  elementType : IreeHalElementType
  encodingDenseRowMajor : Bool
  usageDefault : Bool
  accessAll : Bool
  memoryTypeDeviceLocal : Bool
  byteLength : Nat
  deriving DecidableEq

/-- Device buffer wrapper of the handle.h revision: it owns at most one
buffer view, embedded as an optional view identity; a default constructed
buffer holds none. -/
structure Buffer where
  bufferView : Option Nat := none
  deriving DecidableEq

/-- Allocation request built by FusilliHandle::allocateBuffer in handle.h for
the given shape and a data vector of the given length and element size; the
element type argument is the hard coded FLOAT_32 constant. -/
def allocRequest (bufferShape : List Int) (bufferDataLen sizeofT : Nat) :
    AllocRequest :=
  { rank := bufferShape.length
    shape := bufferShape
    elementType := .FLOAT_32
    encodingDenseRowMajor := true
    usageDefault := true
    accessAll := true
    memoryTypeDeviceLocal := true
    byteLength := bufferDataLen * sizeofT }

/-- Device buffer allocation, from FusilliHandle::allocateBuffer in handle.h:
a default buffer is constructed, its raw view pointer is copied into a local,
the allocation call writes the allocated view into that local only, and the
buffer constructed before the call is returned unchanged.  The external
allocation is modelled by a function from the request to a view identity, and
the element type of T reaches the function as an argument it never reads. -/
def FusilliHandle.allocateBuffer (alloc : AllocRequest → ErrorOr Nat)
    (elemTypeOfT : IreeHalElementType) (sizeofT : Nat)
    (bufferShape : List Int) (bufferDataLen : Nat) : ErrorOr Buffer :=
  let buffer : Buffer := {}
  let localBufferView := buffer.bufferView
  match alloc (allocRequest bufferShape bufferDataLen sizeofT) with
  | .error e => .error e
  | .ok v =>
    let _localBufferView := some v
    .ok buffer

/-- Cache validity predicate of the specification, stated over the embedded
state: a hit exactly when the in-memory cache record is populated, each
recorded path equals the canonical path of the current graph name, the stored
input file holds the generated assembly, and the stored command file holds
the freshly rebuilt compile command. -/
def cacheValiditySpec (g : Graph) (backend : Backend) (generatedAsm : String)
    (fs : FS) : Bool :=
  match g.cache with
  | none => false
  | some c =>
    decide (c.input.path =
        CacheFile.getPath g.getName IREE_COMPILE_INPUT_FILENAME) &&
    decide (c.output.path =
        CacheFile.getPath g.getName IREE_COMPILE_OUTPUT_FILENAME) &&
    decide (c.compileCommand.path =
        CacheFile.getPath g.getName IREE_COMPILE_COMMAND_FILENAME) &&
    decide (fs (CacheFile.getPath g.getName IREE_COMPILE_INPUT_FILENAME) =
        some generatedAsm) &&
    decide (fs (CacheFile.getPath g.getName IREE_COMPILE_COMMAND_FILENAME) =
        some (buildCompileCommand backend
          ⟨CacheFile.getPath g.getName IREE_COMPILE_INPUT_FILENAME, false⟩
          ⟨CacheFile.getPath g.getName IREE_COMPILE_OUTPUT_FILENAME, false⟩))

/-- Logical content of a graph: everything the emitter may read (context,
shared tensor store, input and output sets and their sorted views, nodes, and
the validated flag); the cache record and the session are excluded. -/
def Graph.content (g : Graph) :
    Context × List TensorAttr × List Nat × List Nat × List ConvFPropNode ×
      List Nat × List Nat × Bool :=
  (g.context, g.store, g.fullGraphInputs, g.fullGraphOutputs, g.subNodes,
   g.fullGraphInputsSorted, g.fullGraphOutputsSorted, g.isValidated)

/-- Builder-reachable graph states: the fresh graph, input tensor insertion
of a non-virtual attribute, convolution forward insertion, promotion of a
tensor through setOutput true, and validation. -/
inductive Reachable : Graph → Prop where
  | init : Reachable {}
  | tensor (g : Graph) (t : TensorAttr) : Reachable g → t.isVirtual = false →
      Reachable (g.tensor t).1
  | convFProp (g : Graph) (x w : Nat) (a : ConvFPropAttr) : Reachable g →
      Reachable (g.convFProp x w a).1
  | setOutput (g : Graph) (i : Nat) : Reachable g →
      Reachable (g.setTensorOutput i true)
  | validate (g : Graph) : Reachable g → Reachable g.validate.2

/-- Pre-validation phase of Graph::validate: the non-empty name requirement
(the first check of validate in graph.h) followed by the graph node
pre-validation. -/
def Graph.preValidatePhase (g : Graph) : ErrorObject :=
  if g.getName = "" then
    .error ⟨.AttributeNotSet, "Graph name not set"⟩
  else
    g.preValidateNode

/-! Theorems settling the claims. -/

/-- Property inference of a node leaves the validated flag alone. -/
theorem inferProperties_isValidated (nd : ConvFPropNode) (g : Graph) :
    (nd.inferProperties g).2.isValidated = g.isValidated := by
  unfold ConvFPropNode.inferProperties
  split
  · split
    · rfl
    · rfl
  · rfl

/-- Leaf node validation leaves the validated flag alone. -/
theorem nodeValidateSubtree_isValidated (nd : ConvFPropNode) (g : Graph) :
    (nd.validateSubtree g).2.isValidated = g.isValidated := by
  unfold ConvFPropNode.validateSubtree
  cases hpre : nd.preValidate with
  | error e => rfl
  | ok u =>
    rcases hIP : nd.inferProperties g with ⟨e | v, g'⟩
    · have h2 : (nd.inferProperties g).2 = g' := by rw [hIP]
      simp only [hIP]
      rw [← h2, inferProperties_isValidated]
    · have h2 : (nd.inferProperties g).2 = g' := by rw [hIP]
      simp only [hIP]
      cases hpost : nd.postValidate g' with
      | error e => rw [← h2, inferProperties_isValidated]
      | ok u => rw [← h2, inferProperties_isValidated]

/-- Sub-node validation leaves the validated flag alone. -/
theorem validateSubNodes_isValidated (l : List ConvFPropNode) (g : Graph) :
    (validateSubNodes g l).2.isValidated = g.isValidated := by
  induction l generalizing g with
  | nil => rfl
  | cons nd rest ih =>
    unfold validateSubNodes
    rcases h : nd.validateSubtree g with ⟨e | v, g'⟩
    · have h2 : (nd.validateSubtree g).2 = g' := by rw [h]
      simp only [h]
      rw [← h2, nodeValidateSubtree_isValidated]
    · have h2 : (nd.validateSubtree g).2 = g' := by rw [h]
      simp only [h]
      rw [ih g', ← h2, nodeValidateSubtree_isValidated]

/-- Subtree validation of the graph leaves the validated flag alone. -/
theorem graphValidateSubtree_isValidated (g : Graph) :
    g.validateSubtree.2.isValidated = g.isValidated := by
  unfold Graph.validateSubtree
  cases hpre : g.preValidateNode with
  | error e => rfl
  | ok u =>
    rcases h : validateSubNodes g g.subNodes with ⟨e | v, g'⟩
    · have h2 : (validateSubNodes g g.subNodes).2 = g' := by rw [h]
      simp only [h]
      rw [← h2, validateSubNodes_isValidated]
    · have h2 : (validateSubNodes g g.subNodes).2 = g' := by rw [h]
      simp only [h, Graph.inferPropertiesNode]
      rw [← h2, validateSubNodes_isValidated]

/-- C5: validate on a graph with an empty name returns an AttributeNotSet
error and leaves the graph unchanged; and whenever validate returns an error
on a not yet validated graph, the validated flag remains false (it is set
only after every check has succeeded). -/
theorem C5_validate_error_spec (g : Graph) :
    (g.getName = "" →
      g.validate = (.error ⟨.AttributeNotSet, "Graph name not set"⟩, g)) ∧
    (∀ e : FusilliError, g.isValidated = false → g.validate.1 = .error e →
      g.validate.2.isValidated = false) := by
  constructor
  · intro h
    unfold Graph.validate
    simp [h]
  · intro e hval herr
    unfold Graph.validate at herr ⊢
    by_cases hname : g.getName = ""
    · simp [hname, hval]
    · simp only [hname, if_neg, ite_false] at herr ⊢
      rcases hsub : g.validateSubtree with ⟨r | v, g'⟩
      · have h2 : g.validateSubtree.2 = g' := by rw [hsub]
        simp only [hsub]
        rw [← h2, graphValidateSubtree_isValidated, hval]
      · have h2 : g.validateSubtree.2 = g' := by rw [hsub]
        simp only [hsub] at herr ⊢
        cases hin : validateTensorList g' g'.fullGraphInputs with
        | error e2 =>
          simp only [hin]
          rw [← h2, graphValidateSubtree_isValidated, hval]
        | ok u =>
          simp only [hin] at herr ⊢
          cases hout : validateTensorList g' g'.fullGraphOutputs with
          | error e2 =>
            simp only [hout]
            rw [← h2, graphValidateSubtree_isValidated, hval]
          | ok u2 =>
            simp [hout] at herr

/-- C5 witness: the theorem instantiated at the fresh unnamed graph. -/
theorem C5_validate_error_spec_witness :
    ({} : Graph).validate =
      (.error ⟨.AttributeNotSet, "Graph name not set"⟩, {}) ∧
    ({} : Graph).validate.2.isValidated = false :=
  ⟨(C5_validate_error_spec {}).1 rfl,
   (C5_validate_error_spec {}).2 ⟨.AttributeNotSet, "Graph name not set"⟩ rfl
     (by rw [(C5_validate_error_spec {}).1 rfl])⟩

/-- checkSymbols succeeds exactly when the checked names are pairwise
distinct and none of them is already a used symbol. -/
theorem checkSymbols_ok_iff (names : List String) :
    ∀ used, (∃ u, checkSymbols used names = .ok u) ↔
      names.Nodup ∧ ∀ n ∈ names, n ∉ used := by
  induction names with
  | nil =>
    intro used
    simp [checkSymbols]
  | cons n rest ih =>
    intro used
    by_cases h : n ∈ used
    · simp only [checkSymbols, if_pos h]
      simp only [List.nodup_cons, List.mem_cons]
      constructor
      · rintro ⟨u, hu⟩
        exact absurd hu (by simp)
      · rintro ⟨_, hall⟩
        exact absurd (hall n (Or.inl rfl)) (fun hn => hn h)
    · simp only [checkSymbols, if_neg h, ih (n :: used)]
      simp only [List.nodup_cons, List.mem_cons]
      constructor
      · rintro ⟨hnd, hall⟩
        refine ⟨⟨?_, hnd⟩, ?_⟩
        · intro hmem
          exact (hall n hmem) (Or.inl rfl)
        · rintro m (rfl | hm)
          · exact h
          · intro hmu
            exact (hall m hm) (Or.inr hmu)
      · rintro ⟨⟨hnr, hnd⟩, hall⟩
        refine ⟨hnd, ?_⟩
        intro m hm hmc
        rcases hmc with rfl | hmu
        · exact hnr hm
        · exact hall m (Or.inr hm) hmu

/-- checkSymbols fails with an InvalidAttribute error naming one of the
checked symbols whenever they are not pairwise distinct and fresh. -/
theorem checkSymbols_error_mem (names : List String) :
    ∀ used, ¬(names.Nodup ∧ ∀ n ∈ names, n ∉ used) →
      ∃ s ∈ names,
        checkSymbols used names = .error ⟨.InvalidAttribute, dupMsg s⟩ := by
  induction names with
  | nil =>
    intro used h
    simp at h
  | cons n rest ih =>
    intro used h
    by_cases hn : n ∈ used
    · exact ⟨n, List.mem_cons_self n rest, by simp [checkSymbols, hn]⟩
    · have hrest : ¬(rest.Nodup ∧ ∀ m ∈ rest, m ∉ n :: used) := by
        rintro ⟨h1, h2⟩
        apply h
        constructor
        · refine List.nodup_cons.mpr ⟨?_, h1⟩
          intro hmem
          exact (h2 n hmem) (List.mem_cons_self n used)
        · rintro m hmc
          rcases List.mem_cons.mp hmc with rfl | hmu
          · exact hn
          · intro husd
            exact (h2 m hmu) (List.mem_cons_of_mem n husd)
      obtain ⟨s, hs, heq⟩ := ih (n :: used) hrest
      exact ⟨s, List.mem_cons_of_mem n hs, by simp [checkSymbols, hn, heq]⟩

/-- checkSymbols distributes over list append, threading the used set. -/
theorem checkSymbols_append (xs ys : List String) :
    ∀ used, checkSymbols used (xs ++ ys) =
      match checkSymbols used xs with
      | .error e => .error e
      | .ok u => checkSymbols u ys := by
  induction xs with
  | nil =>
    intro used
    simp [checkSymbols]
  | cons x xs ih =>
    intro used
    simp only [List.cons_append, checkSymbols]
    by_cases h : x ∈ used
    · simp [h]
    · simp [h, ih (x :: used)]

/-- Graph pre-validation is the symbol check over the concatenated input,
output and node name lists. -/
theorem preValidateNode_eq (g : Graph) :
    g.preValidateNode =
      match checkSymbols []
          (g.inputNames ++ g.outputNames ++ g.nodeNames) with
      | .error e => .error e
      | .ok _ => .ok () := by
  unfold Graph.preValidateNode
  rw [checkSymbols_append, checkSymbols_append]
  rcases h1 : checkSymbols [] g.inputNames with e1 | u1
  · simp [h1]
  · rcases h2 : checkSymbols u1 g.outputNames with e2 | u2
    · simp [h1, h2]
    · rcases h3 : checkSymbols u2 g.nodeNames with e3 | u3
      · simp [h1, h2, h3]
      · simp [h1, h2, h3]

/-- C6 counterexample: a graph holding two distinct input tensors with the
same name but an empty graph name; validate returns an AttributeNotSet error
and not the InvalidAttribute error the claim states. -/
theorem C6_duplicate_names_counterexample :
    (Graph.validate
        ((({} : Graph).tensor { name := "t" }).1.tensor { name := "t" }).1).1 =
      .error ⟨.AttributeNotSet, "Graph name not set"⟩ ∧
    ∀ msg : String,
      (Graph.validate
          ((({} : Graph).tensor { name := "t" }).1.tensor
            { name := "t" }).1).1 ≠
        .error ⟨.InvalidAttribute, msg⟩ := by
  have heq :
      (Graph.validate
          ((({} : Graph).tensor { name := "t" }).1.tensor
            { name := "t" }).1).1 =
        .error ⟨.AttributeNotSet, "Graph name not set"⟩ := rfl
  refine ⟨heq, ?_⟩
  intro msg h
  rw [heq] at h
  simp at h

/-- C6 amended: on a graph with a non-empty name, duplicated symbol names
among the inputs, outputs and node names make validate return an
InvalidAttribute error naming a duplicated symbol; and the pre-validation
phase succeeds exactly when the graph name is non-empty and all tensor and
node names are pairwise distinct. -/
theorem C6_preValidate_spec (g : Graph) :
    (g.getName ≠ "" →
      ¬(g.inputNames ++ g.outputNames ++ g.nodeNames).Nodup →
      ∃ s ∈ g.inputNames ++ g.outputNames ++ g.nodeNames,
        g.validate.1 = .error ⟨.InvalidAttribute, dupMsg s⟩) ∧
    (g.preValidatePhase = .ok () ↔
      g.getName ≠ "" ∧
        (g.inputNames ++ g.outputNames ++ g.nodeNames).Nodup) := by
  constructor
  · intro hname hdup
    have hno : ¬((g.inputNames ++ g.outputNames ++ g.nodeNames).Nodup ∧
        ∀ n ∈ g.inputNames ++ g.outputNames ++ g.nodeNames, n ∉ ([] : List String)) := by
      rintro ⟨h1, _⟩
      exact hdup h1
    obtain ⟨s, hs, heq⟩ := checkSymbols_error_mem _ [] hno
    refine ⟨s, hs, ?_⟩
    have hpre : g.preValidateNode = .error ⟨.InvalidAttribute, dupMsg s⟩ := by
      rw [preValidateNode_eq, heq]
    unfold Graph.validate Graph.validateSubtree
    simp [hname, hpre]
  · unfold Graph.preValidatePhase
    by_cases hname : g.getName = ""
    · simp [hname]
    · simp only [hname, if_neg, ite_false, ne_eq, not_false_iff, true_and]
      rw [preValidateNode_eq]
      rcases h : checkSymbols []
          (g.inputNames ++ g.outputNames ++ g.nodeNames) with e | u
      · simp only [h]
        constructor
        · intro hfalse
          exact absurd hfalse (by simp)
        · intro hnd
          have := (checkSymbols_ok_iff _ []).mpr ⟨hnd, by simp⟩
          obtain ⟨u, hu⟩ := this
          rw [h] at hu
          exact absurd hu (by simp)
      · simp only [h]
        constructor
        · intro _
          have := (checkSymbols_ok_iff
            (g.inputNames ++ g.outputNames ++ g.nodeNames) []).mp ⟨u, h⟩
          exact this.1
        · intro _
          trivial

/-- C6 witness: the amended theorem instantiated at a named graph with two
equally named input tensors. -/
theorem C6_preValidate_spec_witness :
    ∃ s ∈ Graph.inputNames
          (((({} : Graph).setName "g").tensor { name := "t" }).1.tensor
            { name := "t" }).1 ++
        Graph.outputNames
          (((({} : Graph).setName "g").tensor { name := "t" }).1.tensor
            { name := "t" }).1 ++
        Graph.nodeNames
          (((({} : Graph).setName "g").tensor { name := "t" }).1.tensor
            { name := "t" }).1,
      (Graph.validate
          (((({} : Graph).setName "g").tensor { name := "t" }).1.tensor
            { name := "t" }).1).1 =
        .error ⟨.InvalidAttribute, dupMsg s⟩ :=
  (C6_preValidate_spec
      (((({} : Graph).setName "g").tensor { name := "t" }).1.tensor
        { name := "t" }).1).1
    (by decide) (by decide)

/-- Tensor lookup after an in-place update: only the updated identity (when
in bounds) changes. -/
theorem getTensor_modifyTensor (g : Graph) (i j : Nat)
    (f : TensorAttr → TensorAttr) :
    (g.modifyTensor i f).getTensor j =
      if i = j ∧ i < g.store.length then f (g.getTensor i)
      else g.getTensor j := by
  unfold Graph.modifyTensor Graph.getTensor
  rcases eq_or_ne i j with rfl | hne
  · by_cases hl : i < g.store.length
    · simp [List.getD, List.getElem?_set, hl]
    · have hnone : g.store[i]? = none :=
        List.getElem?_eq_none (Nat.le_of_not_lt hl)
      simp [List.getD, List.getElem?_set, hl, hnone]
  · simp [List.getD, List.getElem?_set, hne]

/-- Tensor lookup below the old length is unchanged by a store append. -/
theorem getD_append_lt (l l2 : List TensorAttr) (i : Nat) (d : TensorAttr)
    (h : i < l.length) : (l ++ l2).getD i d = l.getD i d := by
  simp [List.getD, List.getElem?_append, h]

/-- Tensor lookup at the old length picks the appended element. -/
theorem getD_append_self (l : List TensorAttr) (t d : TensorAttr) :
    (l ++ [t]).getD l.length d = t := by
  simp [List.getD]

/-- In-place tensor updates keep the store length. -/
theorem modifyTensor_store_length (g : Graph) (i : Nat)
    (f : TensorAttr → TensorAttr) :
    (g.modifyTensor i f).store.length = g.store.length := by
  simp [Graph.modifyTensor]

/-- Tensor lookup below the old length through the record produced by
outputTensor style extension. -/
theorem getTensor_extended (k : Graph) (t : TensorAttr) (O : List Nat)
    (N : List ConvFPropNode) (j : Nat) (hj : j < k.store.length) :
    ({ k with
        store := k.store ++ [t]
        fullGraphOutputs := O
        subNodes := N } : Graph).getTensor j = k.getTensor j := by
  simp only [Graph.getTensor]
  exact getD_append_lt _ _ _ _ hj

/-- Tensor lookup at the old length through the record produced by
outputTensor style extension picks the fresh tensor. -/
theorem getTensor_extended_self (k : Graph) (t : TensorAttr) (O : List Nat)
    (N : List ConvFPropNode) :
    ({ k with
        store := k.store ++ [t]
        fullGraphOutputs := O
        subNodes := N } : Graph).getTensor k.store.length = t := by
  simp only [Graph.getTensor]
  exact getD_append_self _ _ _

/-- C3: emitAsm is a deterministic pure function of the graph content; two
content-identical graphs give identical results, the graph state is left
untouched, and two successive calls return the same bytes. -/
theorem C3_emitAsm_deterministic (g h : Graph) (hc : g.content = h.content) :
    g.emitAsm.1 = h.emitAsm.1 ∧ g.emitAsm.2 = g ∧
      g.emitAsm.2.emitAsm.1 = g.emitAsm.1 := by
  have hpure : ∀ k : Graph, k.emitAsm.2 = k := by
    intro k
    unfold Graph.emitAsm
    split
    · rfl
    · rfl
  refine ⟨?_, hpure g, by rw [hpure g]⟩
  cases g with
  | mk gc gs gi go gn gis gos gv gcache gsess =>
    cases h with
    | mk hcx hs hi ho hn his hos hv hcache hsess =>
      simp only [Graph.content, Prod.mk.injEq] at hc
      obtain ⟨h1, h2, h3, h4, h5, h6, h7, h8⟩ := hc
      subst h1
      subst h2
      subst h3
      subst h4
      subst h5
      subst h6
      subst h7
      subst h8
      unfold Graph.emitAsm
      split
      · rfl
      · rfl

/-- C3 witness: two graphs equal in content but differing in the session
flag produce identical assembly, and the state is untouched. -/
theorem C3_emitAsm_deterministic_witness :
    ({ isValidated := true } : Graph).emitAsm.1 =
      ({ isValidated := true, session := true } : Graph).emitAsm.1 ∧
    ({ isValidated := true } : Graph).emitAsm.2 =
      ({ isValidated := true } : Graph) ∧
    ({ isValidated := true } : Graph).emitAsm.2.emitAsm.1 =
      ({ isValidated := true } : Graph).emitAsm.1 :=
  C3_emitAsm_deterministic { isValidated := true }
    { isValidated := true, session := true } rfl

/-- C7 counterexample: immediately after convFProp, before any setOutput
call, the synthesized output tensor (identity 2) is already a member of
fullGraphOutputs, against the final clause of the claim. -/
theorem C7_output_inserted_early_counterexample :
    (((({} : Graph).tensor { name := "x" }).1.tensor
        { name := "w" }).1.convFProp 0 1 {}).1.fullGraphOutputs = [2] := by
  decide

/-- C7 amended: convFProp names an unnamed attribute conv_fprop_(subnode
count), names unnamed inputs opname_X and opname_W, creates and returns a
fresh virtual output tensor named opname_Y, appends exactly one node at the
end of subNodes, and inserts the output tensor into fullGraphOutputs
immediately at creation; a later setOutput true changes only the tensor
flags and not fullGraphOutputs. -/
theorem C7_convFProp_spec (g : Graph) (x w : Nat) (a : ConvFPropAttr)
    (hx : x < g.store.length) (hw : w < g.store.length) (hxw : x ≠ w)
    (hname : a.name = "") (hxn : (g.getTensor x).name = "")
    (hwn : (g.getTensor w).name = "") :
    ((g.convFProp x w a).1.getTensor x).name =
      "conv_fprop_" ++ toString g.subNodes.length ++ "_X" ∧
    ((g.convFProp x w a).1.getTensor w).name =
      "conv_fprop_" ++ toString g.subNodes.length ++ "_W" ∧
    (g.convFProp x w a).2 = g.store.length ∧
    (g.convFProp x w a).1.getTensor (g.convFProp x w a).2 =
      { name := "conv_fprop_" ++ toString g.subNodes.length ++ "_Y",
        isVirtual := true } ∧
    (g.convFProp x w a).1.subNodes =
      g.subNodes ++
        [⟨{ a with
              name := "conv_fprop_" ++ toString g.subNodes.length,
              x := some x, w := some w, y := some g.store.length },
          g.context⟩] ∧
    (g.convFProp x w a).1.fullGraphOutputs =
      g.fullGraphOutputs ++ [g.store.length] ∧
    ∀ b : Bool,
      ((g.convFProp x w a).1.setTensorOutput (g.convFProp x w a).2
          b).fullGraphOutputs =
        (g.convFProp x w a).1.fullGraphOutputs := by
  have hwn2 :
      ((g.modifyTensor x (fun t => t.setName
          ("conv_fprop_" ++ toString g.subNodes.length ++ "_X"))).getTensor
        w).name = "" := by
    rw [getTensor_modifyTensor]
    simp [hxw, hwn]
  have hstep : g.convFProp x w a =
      ({ (g.modifyTensor x (fun t => t.setName
            ("conv_fprop_" ++ toString g.subNodes.length ++ "_X"))).modifyTensor
              w (fun t => t.setName
                ("conv_fprop_" ++ toString g.subNodes.length ++ "_W")) with
          store :=
            ((g.modifyTensor x (fun t => t.setName
              ("conv_fprop_" ++ toString g.subNodes.length ++ "_X"))).modifyTensor
                w (fun t => t.setName
                  ("conv_fprop_" ++ toString g.subNodes.length ++ "_W"))).store ++
              [{ name := "conv_fprop_" ++ toString g.subNodes.length ++ "_Y",
                 isVirtual := true }]
          fullGraphOutputs :=
            g.fullGraphOutputs ++ [g.store.length]
          subNodes :=
            g.subNodes ++
              [⟨{ a with
                    name := "conv_fprop_" ++ toString g.subNodes.length,
                    x := some x, w := some w, y := some g.store.length },
                g.context⟩] },
        g.store.length) := by
    unfold Graph.convFProp Graph.outputTensor
    simp only [hname, hxn, hwn2, eq_self_iff_true, ite_true]
    simp [Graph.modifyTensor, TensorAttr.setName, TensorAttr.setIsVirtual]
  simp only [hstep]
  refine ⟨?_, ?_, trivial, ?_, trivial, trivial, fun b => rfl⟩
  · rw [getTensor_extended _ _ _ _ _
      (by simp [Graph.modifyTensor, hx])]
    rw [getTensor_modifyTensor,
      if_neg (fun hcontra => absurd hcontra.1.symm hxw)]
    rw [getTensor_modifyTensor, if_pos ⟨rfl, hx⟩]
    rfl
  · rw [getTensor_extended _ _ _ _ _
      (by simp [Graph.modifyTensor, hw])]
    rw [getTensor_modifyTensor,
      if_pos ⟨rfl, by simp [Graph.modifyTensor, hw]⟩]
    rfl
  · rw [show g.store.length =
        ((g.modifyTensor x (fun t => t.setName
            ("conv_fprop_" ++ toString g.subNodes.length ++ "_X"))).modifyTensor
          w (fun t => t.setName
            ("conv_fprop_" ++ toString g.subNodes.length ++
              "_W"))).store.length from
      (by simp [Graph.modifyTensor])]
    rw [getTensor_extended_self]

/-- C7 witness: the amended theorem instantiated at a graph with two unnamed
input tensors; the fresh output identity is appended to fullGraphOutputs at
creation. -/
theorem C7_convFProp_spec_witness :
    (((({} : Graph).tensor {}).1.tensor {}).1.convFProp 0 1
        {}).1.fullGraphOutputs =
      ((({} : Graph).tensor {}).1.tensor {}).1.fullGraphOutputs ++
        [((({} : Graph).tensor {}).1.tensor {}).1.store.length] :=
  (C7_convFProp_spec ((({} : Graph).tensor {}).1.tensor {}).1 0 1 {}
    (by decide) (by decide) (by decide) rfl rfl rfl).2.2.2.2.2.1

/-- Data type filling keeps the virtual flag. -/
theorem fillDataType_isVirtual (t : TensorAttr) (dt : DataType) :
    (fillDataType t dt).isVirtual = t.isVirtual := by
  unfold fillDataType
  split
  · rfl
  · rfl

/-- Stride filling keeps the virtual flag. -/
theorem fillStrideContiguous_isVirtual (t : TensorAttr) :
    (fillStrideContiguous t).isVirtual = t.isVirtual := by
  unfold fillStrideContiguous
  split
  · rfl
  · rfl

/-- Dim filling keeps the virtual flag. -/
theorem fillDim_isVirtual (t : TensorAttr) (d : List Int) :
    (fillDim t d).isVirtual = t.isVirtual := by
  unfold fillDim
  split
  · rfl
  · rfl

/-- In-place tensor updates through a virtual flag preserving function keep
the inputs, the store length and all virtual flags. -/
theorem modifyTensor_preserves (g : Graph) (i : Nat)
    (f : TensorAttr → TensorAttr)
    (hf : ∀ t, (f t).isVirtual = t.isVirtual) :
    (g.modifyTensor i f).fullGraphInputs = g.fullGraphInputs ∧
    (g.modifyTensor i f).store.length = g.store.length ∧
    ∀ j, ((g.modifyTensor i f).getTensor j).isVirtual =
      (g.getTensor j).isVirtual := by
  refine ⟨rfl, modifyTensor_store_length g i f, ?_⟩
  intro j
  rw [getTensor_modifyTensor]
  split
  · rename_i hcond
    rw [hf, hcond.1]
  · rfl

/-- Convolution property inference keeps the inputs, the store length and
all virtual flags. -/
theorem inferProperties_preserves (nd : ConvFPropNode) (g : Graph) :
    (nd.inferProperties g).2.fullGraphInputs = g.fullGraphInputs ∧
    (nd.inferProperties g).2.store.length = g.store.length ∧
    ∀ j, ((nd.inferProperties g).2.getTensor j).isVirtual =
      (g.getTensor j).isVirtual := by
  rcases hox : nd.attr.x with _ | xi <;>
    rcases how : nd.attr.w with _ | wi <;>
    rcases hoy : nd.attr.y with _ | yi <;>
    unfold ConvFPropNode.inferProperties <;>
    simp only [hox, how, hoy]
  case some.some.some =>
    rcases hxd : (g.getTensor xi).dim with _ | ⟨n, _ | ⟨c, spat⟩⟩ <;>
      rcases hwd : (g.getTensor wi).dim with _ | ⟨k, _ | ⟨fc, ker⟩⟩ <;>
      simp only []
    case cons.cons.cons.cons =>
      obtain ⟨a1, b1, c1⟩ := modifyTensor_preserves g xi
        (fun t => fillStrideContiguous (fillDataType t nd.context.ioDataType))
        (fun t => by
          rw [fillStrideContiguous_isVirtual, fillDataType_isVirtual])
      obtain ⟨a2, b2, c2⟩ := modifyTensor_preserves
        (g.modifyTensor xi
          (fun t => fillStrideContiguous (fillDataType t nd.context.ioDataType)))
        wi
        (fun t => fillStrideContiguous (fillDataType t nd.context.ioDataType))
        (fun t => by
          rw [fillStrideContiguous_isVirtual, fillDataType_isVirtual])
      obtain ⟨a3, b3, c3⟩ := modifyTensor_preserves
        ((g.modifyTensor xi
            (fun t => fillStrideContiguous
              (fillDataType t nd.context.ioDataType))).modifyTensor wi
          (fun t => fillStrideContiguous (fillDataType t nd.context.ioDataType)))
        yi
        (fun t =>
          fillDataType (fillStrideContiguous (fillDim t
              (n :: k :: convOutDims spat nd.attr.padding nd.attr.dilation
                ker nd.attr.stride)))
            (if (fillStrideContiguous (fillDim t
                (n :: k :: convOutDims spat nd.attr.padding nd.attr.dilation
                  ker nd.attr.stride))).isVirtual then
              nd.context.intermediateDataType
            else nd.context.ioDataType))
        (fun t => by
          rw [fillDataType_isVirtual, fillStrideContiguous_isVirtual,
            fillDim_isVirtual])
      exact ⟨a3.trans (a2.trans a1), b3.trans (b2.trans b1),
        fun j => (c3 j).trans ((c2 j).trans (c1 j))⟩
    all_goals exact ⟨by trivial, by trivial, fun j => by trivial⟩
  all_goals exact ⟨by trivial, by trivial, fun j => by trivial⟩

/-- Leaf node validation keeps the inputs, the store length and all virtual
flags. -/
theorem nodeValidateSubtree_preserves (nd : ConvFPropNode) (g : Graph) :
    (nd.validateSubtree g).2.fullGraphInputs = g.fullGraphInputs ∧
    (nd.validateSubtree g).2.store.length = g.store.length ∧
    ∀ j, ((nd.validateSubtree g).2.getTensor j).isVirtual =
      (g.getTensor j).isVirtual := by
  unfold ConvFPropNode.validateSubtree
  cases hpre : nd.preValidate with
  | error e => exact ⟨rfl, rfl, fun j => rfl⟩
  | ok u =>
    rcases hIP : nd.inferProperties g with ⟨e | v, g'⟩
    · have h2 : (nd.inferProperties g).2 = g' := by rw [hIP]
      obtain ⟨a1, b1, c1⟩ := inferProperties_preserves nd g
      rw [h2] at a1 b1 c1
      simp only [hIP]
      exact ⟨a1, b1, c1⟩
    · have h2 : (nd.inferProperties g).2 = g' := by rw [hIP]
      obtain ⟨a1, b1, c1⟩ := inferProperties_preserves nd g
      rw [h2] at a1 b1 c1
      simp only [hIP]
      cases hpost : nd.postValidate g' with
      | error e => exact ⟨a1, b1, c1⟩
      | ok u => exact ⟨a1, b1, c1⟩

/-- Sub-node validation keeps the inputs, the store length and all virtual
flags. -/
theorem validateSubNodes_preserves (l : List ConvFPropNode) (g : Graph) :
    (validateSubNodes g l).2.fullGraphInputs = g.fullGraphInputs ∧
    (validateSubNodes g l).2.store.length = g.store.length ∧
    ∀ j, ((validateSubNodes g l).2.getTensor j).isVirtual =
      (g.getTensor j).isVirtual := by
  induction l generalizing g with
  | nil => exact ⟨rfl, rfl, fun j => rfl⟩
  | cons nd rest ih =>
    unfold validateSubNodes
    rcases h : nd.validateSubtree g with ⟨e | v, g'⟩
    · have h2 : (nd.validateSubtree g).2 = g' := by rw [h]
      obtain ⟨a1, b1, c1⟩ := nodeValidateSubtree_preserves nd g
      rw [h2] at a1 b1 c1
      simp only [h]
      exact ⟨a1, b1, c1⟩
    · have h2 : (nd.validateSubtree g).2 = g' := by rw [h]
      obtain ⟨a1, b1, c1⟩ := nodeValidateSubtree_preserves nd g
      rw [h2] at a1 b1 c1
      obtain ⟨a2, b2, c2⟩ := ih g'
      simp only [h]
      exact ⟨a2.trans a1, b2.trans b1, fun j => (c2 j).trans (c1 j)⟩

/-- Whole graph validation keeps the inputs, the store length and all
virtual flags. -/
theorem validate_preserves (g : Graph) :
    g.validate.2.fullGraphInputs = g.fullGraphInputs ∧
    g.validate.2.store.length = g.store.length ∧
    ∀ j, (g.validate.2.getTensor j).isVirtual =
      (g.getTensor j).isVirtual := by
  have hsubtree : g.validateSubtree.2.fullGraphInputs = g.fullGraphInputs ∧
      g.validateSubtree.2.store.length = g.store.length ∧
      ∀ j, (g.validateSubtree.2.getTensor j).isVirtual =
        (g.getTensor j).isVirtual := by
    unfold Graph.validateSubtree
    cases hpre : g.preValidateNode with
    | error e => exact ⟨rfl, rfl, fun j => rfl⟩
    | ok u =>
      rcases h : validateSubNodes g g.subNodes with ⟨e | v, g'⟩
      · have h2 : (validateSubNodes g g.subNodes).2 = g' := by rw [h]
        obtain ⟨a1, b1, c1⟩ := validateSubNodes_preserves g.subNodes g
        rw [h2] at a1 b1 c1
        simp only [h]
        exact ⟨a1, b1, c1⟩
      · have h2 : (validateSubNodes g g.subNodes).2 = g' := by rw [h]
        obtain ⟨a1, b1, c1⟩ := validateSubNodes_preserves g.subNodes g
        rw [h2] at a1 b1 c1
        simp only [h, Graph.inferPropertiesNode]
        exact ⟨a1, b1, c1⟩
  unfold Graph.validate
  by_cases hname : g.getName = ""
  · rw [if_pos hname]
    exact ⟨rfl, rfl, fun j => rfl⟩
  · rw [if_neg hname]
    obtain ⟨a1, b1, c1⟩ := hsubtree
    rcases h : g.validateSubtree with ⟨e | v, g'⟩
    · have h2 : g.validateSubtree.2 = g' := by rw [h]
      rw [h2] at a1 b1 c1
      simp only [h]
      exact ⟨a1, b1, c1⟩
    · have h2 : g.validateSubtree.2 = g' := by rw [h]
      rw [h2] at a1 b1 c1
      simp only [h]
      cases hin : validateTensorList g' g'.fullGraphInputs with
      | error e2 => exact ⟨a1, b1, c1⟩
      | ok u =>
        cases hout : validateTensorList g' g'.fullGraphOutputs with
        | error e2 => exact ⟨a1, b1, c1⟩
        | ok u2 => exact ⟨a1, b1, c1⟩

/-- A store update that only renames the tensor at one position keeps every
virtual flag. -/
theorem isVirtual_getD_set_name (l : List TensorAttr) (i : Nat) (s : String)
    (j : Nat) :
    (((l.set i ((l.getD i {}).setName s)).getD j {}) : TensorAttr).isVirtual =
      ((l.getD j {}) : TensorAttr).isVirtual := by
  rcases eq_or_ne i j with rfl | hne
  · by_cases hl : i < l.length
    · simp [List.getD, List.getElem?_set, hl, TensorAttr.setName]
    · have hnone : l[i]? = none := List.getElem?_eq_none (Nat.le_of_not_lt hl)
      simp [List.getD, List.getElem?_set, hl, hnone]
  · simp [List.getD, List.getElem?_set, hne]

/-- convFProp keeps the inputs, can only grow the store, and keeps the
virtual flags of the previously stored tensors. -/
theorem convFProp_preserves (g : Graph) (x w : Nat) (a : ConvFPropAttr) :
    (g.convFProp x w a).1.fullGraphInputs = g.fullGraphInputs ∧
    g.store.length ≤ (g.convFProp x w a).1.store.length ∧
    ∀ j, j < g.store.length →
      ((g.convFProp x w a).1.getTensor j).isVirtual =
        (g.getTensor j).isVirtual := by
  unfold Graph.convFProp Graph.outputTensor
  dsimp only
  split
  <;> split
  <;> split
  <;> refine ⟨rfl, ?_, ?_⟩
  <;> first
    | (intro j hj
       simp only [Graph.getTensor, Graph.modifyTensor]
       rw [getD_append_lt _ _ _ _ (by
         try simp only [List.length_set]
         omega)]
       repeat rw [isVirtual_getD_set_name])
    | (simp [Graph.modifyTensor]
       try omega)

/-- C8 counterexample: a builder reachable graph (two named inputs and one
convFProp, no promotion) holds a virtual tensor inside fullGraphOutputs. -/
theorem C8_virtual_in_outputs_counterexample :
    ((((({} : Graph).tensor { name := "a" }).1.tensor
        { name := "b" }).1.convFProp 0 1 {}).1.getTensor 2).isVirtual =
      true ∧
    2 ∈ (((({} : Graph).tensor { name := "a" }).1.tensor
        { name := "b" }).1.convFProp 0 1 {}).1.fullGraphOutputs := by
  decide

/-- C8 amended: across every builder reachable state (input insertion of
non-virtual attributes, convFProp, promotion through setOutput true, and
validate), every tensor in the full graph inputs is in bounds and never
virtual; the virtual convFProp output lives in fullGraphOutputs until it is
promoted, so the claim holds for the inputs only. -/
theorem C8_virtual_not_in_inputs (g : Graph) (hreach : Reachable g) :
    ∀ i ∈ g.fullGraphInputs,
      i < g.store.length ∧ (g.getTensor i).isVirtual = false := by
  induction hreach with
  | init =>
    intro i hi
    exact absurd hi (List.not_mem_nil i)
  | tensor g t hr ht ih =>
    intro i hi
    simp only [Graph.tensor] at hi
    rcases List.mem_append.mp hi with hold | hnew
    · obtain ⟨hb, hv⟩ := ih i hold
      constructor
      · simp only [Graph.tensor, List.length_append, List.length_singleton]
        omega
      · simp only [Graph.tensor, Graph.getTensor]
        rw [getD_append_lt _ _ _ _ hb]
        exact hv
    · have hi2 : i = g.store.length := by simpa using hnew
      subst hi2
      constructor
      · simp only [Graph.tensor, List.length_append, List.length_singleton]
        omega
      · simp only [Graph.tensor, Graph.getTensor]
        rw [getD_append_self]
        exact ht
  | convFProp g x w a hr ih =>
    intro i hi
    obtain ⟨hinp, hlen, hvirt⟩ := convFProp_preserves g x w a
    rw [hinp] at hi
    obtain ⟨hb, hv⟩ := ih i hi
    exact ⟨lt_of_lt_of_le hb hlen, (hvirt i hb).trans hv⟩
  | setOutput g i0 hr ih =>
    intro i hi
    have hi2 : i ∈ g.fullGraphInputs := hi
    obtain ⟨hb, hv⟩ := ih i hi2
    constructor
    · simpa [Graph.setTensorOutput, Graph.modifyTensor] using hb
    · unfold Graph.setTensorOutput
      rw [getTensor_modifyTensor]
      split
      · simp [TensorAttr.setOutput]
      · exact hv
  | validate g hr ih =>
    intro i hi
    obtain ⟨a1, b1, c1⟩ := validate_preserves g
    rw [a1] at hi
    obtain ⟨hb, hv⟩ := ih i hi
    refine ⟨?_, (c1 i).trans hv⟩
    rw [b1]
    exact hb

/-- C8 witness: the amended invariant evaluated on a reachable graph with a
convFProp node, at the first input. -/
theorem C8_virtual_not_in_inputs_witness :
    0 < (((({} : Graph).tensor { name := "a" }).1.tensor
        { name := "b" }).1.convFProp 0 1 {}).1.store.length ∧
    ((((({} : Graph).tensor { name := "a" }).1.tensor
        { name := "b" }).1.convFProp 0 1 {}).1.getTensor 0).isVirtual =
      false :=
  C8_virtual_not_in_inputs _
    (Reachable.convFProp _ 0 1 {}
      (Reachable.tensor _ { name := "b" }
        (Reachable.tensor _ { name := "a" } Reachable.init rfl) rfl))
    0 (by decide)

/-- validateCache agrees with the specification predicate whenever the three
canonical cache files exist on the filesystem. -/
theorem validateCache_eq (g : Graph) (backend : Backend)
    (generatedAsm : String) (fs : FS)
    (hin : (fs (CacheFile.getPath g.getName
      IREE_COMPILE_INPUT_FILENAME)).isSome)
    (hout : (fs (CacheFile.getPath g.getName
      IREE_COMPILE_OUTPUT_FILENAME)).isSome)
    (hcmd : (fs (CacheFile.getPath g.getName
      IREE_COMPILE_COMMAND_FILENAME)).isSome) :
    g.validateCache backend generatedAsm fs =
      .ok (cacheValiditySpec g backend generatedAsm fs) := by
  obtain ⟨vin, hvin⟩ := Option.isSome_iff_exists.mp hin
  obtain ⟨vout, hvout⟩ := Option.isSome_iff_exists.mp hout
  obtain ⟨vcmd, hvcmd⟩ := Option.isSome_iff_exists.mp hcmd
  unfold Graph.validateCache cacheValiditySpec
  cases hc : g.cache with
  | none => rfl
  | some c =>
    by_cases h1 : c.input.path =
        CacheFile.getPath g.getName IREE_COMPILE_INPUT_FILENAME
    · by_cases h2 : c.output.path =
          CacheFile.getPath g.getName IREE_COMPILE_OUTPUT_FILENAME
      · by_cases h3 : c.compileCommand.path =
            CacheFile.getPath g.getName IREE_COMPILE_COMMAND_FILENAME
        · by_cases h4 : vin = generatedAsm
          · by_cases h5 : vcmd = buildCompileCommand backend
                ⟨CacheFile.getPath g.getName IREE_COMPILE_INPUT_FILENAME,
                  false⟩
                ⟨CacheFile.getPath g.getName IREE_COMPILE_OUTPUT_FILENAME,
                  false⟩
            · simp [h1, h2, h3, h4, h5, CacheFile.openFile, CacheFile.read,
                hvin, hvout, hvcmd]
            · simp [h1, h2, h3, h4, h5, CacheFile.openFile, CacheFile.read,
                hvin, hvout, hvcmd]
          · simp [h1, h2, h3, h4, CacheFile.openFile, CacheFile.read,
              hvin, hvout, hvcmd]
        · simp [h1, h2, h3]
      · simp [h1, h2]
    · simp [h1]

/-- Successful artifact generation: the returned cache record points at the
canonical paths, and the filesystem afterwards holds the written assembly,
the written command, and an existing output file. -/
theorem generate_ok (nm : String) (b : Backend) (asm : String) (rm : Bool)
    (sys : String → Int) (fs : FS) (hsys : ∀ c : String, sys c = 0) :
    (generateCompiledArtifact nm b asm rm sys fs).1 =
      .ok ⟨⟨CacheFile.getPath nm IREE_COMPILE_INPUT_FILENAME, rm⟩,
        ⟨CacheFile.getPath nm IREE_COMPILE_OUTPUT_FILENAME, rm⟩,
        ⟨CacheFile.getPath nm IREE_COMPILE_COMMAND_FILENAME, rm⟩⟩ ∧
    (generateCompiledArtifact nm b asm rm sys fs).2
        (CacheFile.getPath nm IREE_COMPILE_INPUT_FILENAME) = some asm ∧
    (generateCompiledArtifact nm b asm rm sys fs).2
        (CacheFile.getPath nm IREE_COMPILE_COMMAND_FILENAME) =
      some (buildCompileCommand b
        ⟨CacheFile.getPath nm IREE_COMPILE_INPUT_FILENAME, rm⟩
        ⟨CacheFile.getPath nm IREE_COMPILE_OUTPUT_FILENAME, rm⟩) ∧
    ((generateCompiledArtifact nm b asm rm sys fs).2
        (CacheFile.getPath nm IREE_COMPILE_OUTPUT_FILENAME)).isSome := by
  have hne1 : IREE_COMPILE_COMMAND_FILENAME ≠ IREE_COMPILE_INPUT_FILENAME :=
    by decide
  have hne2 : IREE_COMPILE_COMMAND_FILENAME ≠ IREE_COMPILE_OUTPUT_FILENAME :=
    by decide
  have hne3 : IREE_COMPILE_INPUT_FILENAME ≠ IREE_COMPILE_OUTPUT_FILENAME :=
    by decide
  refine ⟨?_, ?_, ?_, ?_⟩ <;>
    simp [generateCompiledArtifact, CacheFile.create, CacheFile.write,
      CacheFile.getPath, hsys, CachePath.mk.injEq, hne1, hne2, hne3,
      Ne.symm hne1, Ne.symm hne2, Ne.symm hne3]

/-- The compile command determines the backend: distinct backends build
distinct command lines for the same cache files. -/
theorem buildCompileCommand_backend_injective (i o : CacheFile)
    (b b2 : Backend) (hne : b ≠ b2) :
    buildCompileCommand b i o ≠ buildCompileCommand b2 i o := by
  have l1 : ("iree-compile" : String).length = 12 := rfl
  have lsp : (" " : String).length = 1 := rfl
  have lf1 : ("--iree-hal-target-backends=llvm-cpu" : String).length = 35 :=
    rfl
  have lf2 : ("--iree-llvmcpu-target-cpu=host" : String).length = 30 := rfl
  have lf3 : ("--iree-hal-target-backends=rocm" : String).length = 31 := rfl
  have lf4 : ("--iree-hip-target=gfx942" : String).length = 24 := rfl
  have lf5 : ("--iree-opt-level=O3" : String).length = 19 := rfl
  have lo : ("-o" : String).length = 2 := rfl
  have lnl : ("\n" : String).length = 1 := rfl
  have key : buildCompileCommand .CPU i o ≠ buildCompileCommand .GFX942 i o := by
    intro h
    have hl := congrArg String.length h
    simp only [buildCompileCommand, interleaveSpace, backendFlags,
      IREE_COMPILE_PATH, String.length_append, l1, lsp, lf1, lf2, lf3, lf4,
      lf5, lo, lnl] at hl
    omega
  cases b <;> cases b2
  · exact absurd rfl hne
  · exact key
  · exact fun h => key h.symm
  · exact absurd rfl hne

/-- C1: validateCache returns a hit exactly when the in-memory cache record
is populated, the three recorded paths equal the canonical paths of the
current graph name, the stored input file holds the generated assembly, and
the stored command file holds the freshly rebuilt command; otherwise a miss
is reported; and getCompiledArtifact reports reCompiled false exactly on a
hit. -/
theorem C1_validateCache_spec (g : Graph) (backend : Backend)
    (generatedAsm : String) (fs : FS)
    (hin : (fs (CacheFile.getPath g.getName
      IREE_COMPILE_INPUT_FILENAME)).isSome)
    (hout : (fs (CacheFile.getPath g.getName
      IREE_COMPILE_OUTPUT_FILENAME)).isSome)
    (hcmd : (fs (CacheFile.getPath g.getName
      IREE_COMPILE_COMMAND_FILENAME)).isSome) :
    g.validateCache backend generatedAsm fs =
      .ok (cacheValiditySpec g backend generatedAsm fs) ∧
    ∀ remove : Bool, ∀ sys : String → Int, (∀ c : String, sys c = 0) →
      ∃ p, (g.getCompiledArtifact backend generatedAsm remove sys fs).1 =
        .ok (p, !cacheValiditySpec g backend generatedAsm fs) := by
  have hmain := validateCache_eq g backend generatedAsm fs hin hout hcmd
  refine ⟨hmain, ?_⟩
  intro remove sys hsys
  unfold Graph.getCompiledArtifact
  rw [hmain]
  cases hspec : cacheValiditySpec g backend generatedAsm fs with
  | true =>
    exact ⟨_, rfl⟩
  | false =>
    rcases hgen : generateCompiledArtifact g.getName backend generatedAsm
        remove sys fs with ⟨r1, fs1⟩
    have hr1 : r1 = .ok
        ⟨⟨CacheFile.getPath g.getName IREE_COMPILE_INPUT_FILENAME, remove⟩,
          ⟨CacheFile.getPath g.getName IREE_COMPILE_OUTPUT_FILENAME, remove⟩,
          ⟨CacheFile.getPath g.getName IREE_COMPILE_COMMAND_FILENAME,
            remove⟩⟩ := by
      have := (generate_ok g.getName backend generatedAsm remove sys fs
        hsys).1
      rw [hgen] at this
      exact this
    subst hr1
    simp only [hgen]
    exact ⟨_, rfl⟩

/-- C1 witness: the theorem instantiated at a fresh graph over a filesystem
holding empty files; the cache record is absent so a miss is reported and a
recompilation happens. -/
theorem C1_validateCache_spec_witness :
    Graph.validateCache { context := { name := "g" } } .CPU "asm"
        (fun _ => some "") =
      .ok (cacheValiditySpec { context := { name := "g" } } .CPU "asm"
        (fun _ => some "")) ∧
    ∃ p, (Graph.getCompiledArtifact { context := { name := "g" } } .CPU
        "asm" false (fun _ => 0) (fun _ => some "")).1 =
      .ok (p, !cacheValiditySpec { context := { name := "g" } } .CPU "asm"
        (fun _ => some "")) :=
  ⟨(C1_validateCache_spec { context := { name := "g" } } .CPU "asm"
      (fun _ => some "") rfl rfl rfl).1,
   (C1_validateCache_spec { context := { name := "g" } } .CPU "asm"
      (fun _ => some "") rfl rfl rfl).2 false (fun _ => 0) (fun _ => rfl)⟩

/-- A cache miss with an always succeeding compiler regenerates: reCompiled
is reported true. -/
theorem getCompiledArtifact_miss (g2 : Graph) (b : Backend) (asm : String)
    (sys : String → Int) (fs2 : FS)
    (hvc : g2.validateCache b asm fs2 = .ok false)
    (hsys : ∀ c : String, sys c = 0) :
    ∃ p2, (g2.getCompiledArtifact b asm false sys fs2).1 = .ok (p2, true) := by
  unfold Graph.getCompiledArtifact
  rw [hvc]
  rcases hg : generateCompiledArtifact g2.getName b asm false sys fs2 with
    ⟨r1, f1⟩
  have hr1 := (generate_ok g2.getName b asm false sys fs2 hsys).1
  rw [hg] at hr1
  simp only at hr1
  subst hr1
  simp only [hg]
  exact ⟨_, rfl⟩

/-- C2: on a graph instance whose in-memory cache has not been generated
yet, the first getCompiledArtifact call recompiles and the second identical
call hits the cache; changing the graph name, the generated assembly, or the
backend of the handle makes the next call recompile. -/
theorem C2_cache_idempotence (g : Graph) (backend : Backend)
    (generatedAsm : String) (sys : String → Int) (fs : FS)
    (hfresh : g.cache = none) (hsys : ∀ c : String, sys c = 0) :
    ∃ p g1 fs1,
      g.getCompiledArtifact backend generatedAsm false sys fs =
        (.ok (p, true), g1, fs1) ∧
      (g1.getCompiledArtifact backend generatedAsm false sys fs1).1 =
        .ok (p, false) ∧
      (∀ n2, n2 ≠ g.getName →
        ∃ p2, ((g1.setName n2).getCompiledArtifact backend generatedAsm
            false sys fs1).1 = .ok (p2, true)) ∧
      (∀ asm2, asm2 ≠ generatedAsm →
        ∃ p2, (g1.getCompiledArtifact backend asm2 false sys fs1).1 =
          .ok (p2, true)) ∧
      (∀ b2, b2 ≠ backend →
        ∃ p2, (g1.getCompiledArtifact b2 generatedAsm false sys fs1).1 =
          .ok (p2, true)) := by
  obtain ⟨hgen1, hfin, hfcmd, hfout⟩ :=
    generate_ok g.getName backend generatedAsm false sys fs hsys
  have hfin2 : (generateCompiledArtifact g.context.name backend generatedAsm
      false sys fs).2 (CacheFile.getPath g.context.name
        IREE_COMPILE_INPUT_FILENAME) = some generatedAsm := hfin
  have hfcmd2 : (generateCompiledArtifact g.context.name backend generatedAsm
      false sys fs).2 (CacheFile.getPath g.context.name
        IREE_COMPILE_COMMAND_FILENAME) =
      some (buildCompileCommand backend
        ⟨CacheFile.getPath g.context.name IREE_COMPILE_INPUT_FILENAME, false⟩
        ⟨CacheFile.getPath g.context.name IREE_COMPILE_OUTPUT_FILENAME,
          false⟩) := hfcmd
  have hin1 : (((generateCompiledArtifact g.getName backend generatedAsm
      false sys fs).2) (CacheFile.getPath g.getName
        IREE_COMPILE_INPUT_FILENAME)).isSome := by
    rw [hfin]
    rfl
  have hcmd1 : (((generateCompiledArtifact g.getName backend generatedAsm
      false sys fs).2) (CacheFile.getPath g.getName
        IREE_COMPILE_COMMAND_FILENAME)).isSome := by
    rw [hfcmd]
    rfl
  have hvc1 : g.validateCache backend generatedAsm fs = .ok false := by
    simp [Graph.validateCache, hfresh]
  refine ⟨CacheFile.getPath g.getName IREE_COMPILE_OUTPUT_FILENAME,
    { g with cache := (some
        ⟨⟨CacheFile.getPath g.getName IREE_COMPILE_INPUT_FILENAME, false⟩,
         ⟨CacheFile.getPath g.getName IREE_COMPILE_OUTPUT_FILENAME, false⟩,
         ⟨CacheFile.getPath g.getName IREE_COMPILE_COMMAND_FILENAME,
           false⟩⟩) },
    (generateCompiledArtifact g.getName backend generatedAsm false sys fs).2,
    ?_, ?_, ?_, ?_, ?_⟩
  · unfold Graph.getCompiledArtifact
    rw [hvc1]
    rcases hg : generateCompiledArtifact g.getName backend generatedAsm
        false sys fs with ⟨r1, f1⟩
    rw [hg] at hgen1
    simp only at hgen1
    subst hgen1
    simp only [hg]
  · have hspec1 : cacheValiditySpec
        ({ g with cache := (some
          ⟨⟨CacheFile.getPath g.getName IREE_COMPILE_INPUT_FILENAME, false⟩,
           ⟨CacheFile.getPath g.getName IREE_COMPILE_OUTPUT_FILENAME, false⟩,
           ⟨CacheFile.getPath g.getName IREE_COMPILE_COMMAND_FILENAME,
             false⟩⟩) } : Graph) backend generatedAsm
        ((generateCompiledArtifact g.getName backend generatedAsm false sys
          fs).2) = true := by
      simp [cacheValiditySpec, Graph.getName]
      exact ⟨hfin2, hfcmd2⟩
    have hvc2 := validateCache_eq
      ({ g with cache := (some
        ⟨⟨CacheFile.getPath g.getName IREE_COMPILE_INPUT_FILENAME, false⟩,
         ⟨CacheFile.getPath g.getName IREE_COMPILE_OUTPUT_FILENAME, false⟩,
         ⟨CacheFile.getPath g.getName IREE_COMPILE_COMMAND_FILENAME,
           false⟩⟩) } : Graph) backend generatedAsm
      ((generateCompiledArtifact g.getName backend generatedAsm false sys
        fs).2) hin1 hfout hcmd1
    unfold Graph.getCompiledArtifact
    rw [hvc2, hspec1]
    rfl
  · intro n2 hn2
    have hn2c : g.context.name ≠ n2 := Ne.symm hn2
    refine getCompiledArtifact_miss _ backend generatedAsm sys _ ?_ hsys
    simp [Graph.validateCache, Graph.setName, Graph.getName,
      CacheFile.getPath, CachePath.mk.injEq, hn2c]
  · intro asm2 hasm2
    have hspec2 : cacheValiditySpec
        ({ g with cache := (some
          ⟨⟨CacheFile.getPath g.getName IREE_COMPILE_INPUT_FILENAME, false⟩,
           ⟨CacheFile.getPath g.getName IREE_COMPILE_OUTPUT_FILENAME, false⟩,
           ⟨CacheFile.getPath g.getName IREE_COMPILE_COMMAND_FILENAME,
             false⟩⟩) } : Graph) backend asm2
        ((generateCompiledArtifact g.getName backend generatedAsm false sys
          fs).2) = false := by
      simp [cacheValiditySpec, Graph.getName, hfin2, Option.some.injEq,
        Ne.symm hasm2]
    have hvc4 := validateCache_eq
      ({ g with cache := (some
        ⟨⟨CacheFile.getPath g.getName IREE_COMPILE_INPUT_FILENAME, false⟩,
         ⟨CacheFile.getPath g.getName IREE_COMPILE_OUTPUT_FILENAME, false⟩,
         ⟨CacheFile.getPath g.getName IREE_COMPILE_COMMAND_FILENAME,
           false⟩⟩) } : Graph) backend asm2
      ((generateCompiledArtifact g.getName backend generatedAsm false sys
        fs).2) hin1 hfout hcmd1
    exact getCompiledArtifact_miss _ backend asm2 sys _
      (hvc4.trans (by rw [hspec2])) hsys
  · intro b2 hb2
    have hcmdne := buildCompileCommand_backend_injective
      ⟨CacheFile.getPath g.context.name IREE_COMPILE_INPUT_FILENAME, false⟩
      ⟨CacheFile.getPath g.context.name IREE_COMPILE_OUTPUT_FILENAME, false⟩
      backend b2 (Ne.symm hb2)
    have hspec3 : cacheValiditySpec
        ({ g with cache := (some
          ⟨⟨CacheFile.getPath g.getName IREE_COMPILE_INPUT_FILENAME, false⟩,
           ⟨CacheFile.getPath g.getName IREE_COMPILE_OUTPUT_FILENAME, false⟩,
           ⟨CacheFile.getPath g.getName IREE_COMPILE_COMMAND_FILENAME,
             false⟩⟩) } : Graph) b2 generatedAsm
        ((generateCompiledArtifact g.getName backend generatedAsm false sys
          fs).2) = false := by
      simp [cacheValiditySpec, Graph.getName, hfcmd2, Option.some.injEq,
        hcmdne]
    have hvc5 := validateCache_eq
      ({ g with cache := (some
        ⟨⟨CacheFile.getPath g.getName IREE_COMPILE_INPUT_FILENAME, false⟩,
         ⟨CacheFile.getPath g.getName IREE_COMPILE_OUTPUT_FILENAME, false⟩,
         ⟨CacheFile.getPath g.getName IREE_COMPILE_COMMAND_FILENAME,
           false⟩⟩) } : Graph) b2 generatedAsm
      ((generateCompiledArtifact g.getName backend generatedAsm false sys
        fs).2) hin1 hfout hcmd1
    exact getCompiledArtifact_miss _ b2 generatedAsm sys _
      (hvc5.trans (by rw [hspec3])) hsys

/-- C2 witness: the theorem instantiated at a named fresh graph, an
always-succeeding compiler, and an empty filesystem. -/
theorem C2_cache_idempotence_witness :
    ∃ p g1 fs1,
      Graph.getCompiledArtifact { context := { name := "g" } } .CPU "asm"
          false (fun _ => 0) (fun _ => none) =
        (.ok (p, true), g1, fs1) ∧
      (g1.getCompiledArtifact .CPU "asm" false (fun _ => 0) fs1).1 =
        .ok (p, false) ∧
      (∀ n2, n2 ≠ Graph.getName { context := { name := "g" } } →
        ∃ p2, ((g1.setName n2).getCompiledArtifact .CPU "asm" false
            (fun _ => 0) fs1).1 = .ok (p2, true)) ∧
      (∀ asm2, asm2 ≠ "asm" →
        ∃ p2, (g1.getCompiledArtifact .CPU asm2 false (fun _ => 0) fs1).1 =
          .ok (p2, true)) ∧
      (∀ b2, b2 ≠ Backend.CPU →
        ∃ p2, (g1.getCompiledArtifact b2 "asm" false (fun _ => 0) fs1).1 =
          .ok (p2, true)) :=
  C2_cache_idempotence { context := { name := "g" } } .CPU "asm"
    (fun _ => 0) (fun _ => none) rfl (fun _ => rfl)

/-- C9: buildCompileCommand returns exactly the compiler binary path, the
input path, the fixed per backend flag list, -o and the output path, joined
by single spaces on a single command line; and a non-zero exit code of the
external compiler during generation yields a CompileFailure error. -/
theorem C9_buildCompileCommand_spec (input output : CacheFile)
    (graphName generatedAsm : String) (remove : Bool) (sys : String → Int)
    (fs : FS) :
    buildCompileCommand .CPU input output =
      "iree-compile" ++ " " ++ input.path.render ++ " " ++
        "--iree-hal-target-backends=llvm-cpu" ++ " " ++
        "--iree-llvmcpu-target-cpu=host" ++ " " ++ "-o" ++ " " ++
        output.path.render ++ "\n" ∧
    buildCompileCommand .GFX942 input output =
      "iree-compile" ++ " " ++ input.path.render ++ " " ++
        "--iree-hal-target-backends=rocm" ++ " " ++
        "--iree-hip-target=gfx942" ++ " " ++ "--iree-opt-level=O3" ++ " " ++
        "-o" ++ " " ++ output.path.render ++ "\n" ∧
    ∀ backend : Backend,
      sys (buildCompileCommand backend
            ⟨CacheFile.getPath graphName IREE_COMPILE_INPUT_FILENAME, remove⟩
            ⟨CacheFile.getPath graphName IREE_COMPILE_OUTPUT_FILENAME,
              remove⟩) ≠ 0 →
      (generateCompiledArtifact graphName backend generatedAsm remove
          sys fs).1 =
        .error ⟨.CompileFailure, "iree-compile command failed"⟩ := by
  refine ⟨?_, ?_, ?_⟩
  · simp only [buildCompileCommand, interleaveSpace, backendFlags,
      IREE_COMPILE_PATH]
    simp only [← String.append_assoc]
  · simp only [buildCompileCommand, interleaveSpace, backendFlags,
      IREE_COMPILE_PATH]
    simp only [← String.append_assoc]
  · intro backend h
    simp only [generateCompiledArtifact, CacheFile.create]
    simp [h]

/-- C9 witness: the theorem instantiated at a concrete failing compiler. -/
theorem C9_buildCompileCommand_spec_witness :
    (generateCompiledArtifact "g" .CPU "asm" false (fun _ => 1)
        (fun _ => none)).1 =
      .error ⟨.CompileFailure, "iree-compile command failed"⟩ :=
  (C9_buildCompileCommand_spec ⟨⟨"g", "in"⟩, false⟩ ⟨⟨"g", "out"⟩, false⟩
    "g" "asm" false (fun _ => 1) (fun _ => none)).2.2 .CPU
    (by simp)

/-- C10: the handle.h revision of allocateBuffer requests the device
allocation with element type FLOAT_32 regardless of the element type of T,
and returns the buffer constructed before the allocation call, whose internal
view is never updated with the allocated view. -/
theorem C10_allocateBuffer_spec (alloc : AllocRequest → ErrorOr Nat)
    (elemTypeOfT : IreeHalElementType) (sizeofT : Nat)
    (bufferShape : List Int) (bufferDataLen : Nat) (v : Nat)
    (h : alloc (allocRequest bufferShape bufferDataLen sizeofT) = .ok v) :
    (allocRequest bufferShape bufferDataLen sizeofT).elementType =
      .FLOAT_32 ∧
    FusilliHandle.allocateBuffer alloc elemTypeOfT sizeofT bufferShape
        bufferDataLen = .ok { bufferView := none } ∧
    ∀ otherElemType : IreeHalElementType,
      FusilliHandle.allocateBuffer alloc otherElemType sizeofT bufferShape
          bufferDataLen =
        FusilliHandle.allocateBuffer alloc elemTypeOfT sizeofT bufferShape
          bufferDataLen := by
  refine ⟨rfl, ?_, fun _ => rfl⟩
  simp [FusilliHandle.allocateBuffer, h]

/-- C10 witness: the theorem instantiated at a concrete allocator that
returns view 7; the returned buffer still holds no view. -/
theorem C10_allocateBuffer_spec_witness :
    FusilliHandle.allocateBuffer (fun _ => .ok 7) .FLOAT_16 2 [2, 3] 6 =
      .ok { bufferView := none } :=
  (C10_allocateBuffer_spec (fun _ => .ok 7) .FLOAT_16 2 [2, 3] 6 7 rfl).2.1

/-- C4: on a graph whose validated flag is not set, compile and emitAsm both
return a NotValidated error and leave the graph (and the filesystem)
unchanged. -/
theorem C4_notValidated_guards (g : Graph) (backend : Backend)
    (remove : Bool) (sys : String → Int) (fs : FS)
    (h : g.isValidated = false) :
    g.compile backend remove sys fs =
      (.error ⟨.NotValidated,
        "Graph must be validated before being compiled"⟩, g, fs) ∧
    g.emitAsm =
      (.error ⟨.NotValidated,
        "Graph must be validated before emitting MLIR assembly"⟩, g) := by
  constructor
  · simp [Graph.compile, h]
  · simp [Graph.emitAsm, h]

/-- C4 witness: the theorem instantiated at the fresh graph. -/
theorem C4_notValidated_guards_witness :
    ({} : Graph).compile .CPU false (fun _ => 0) (fun _ => none) =
      (.error ⟨.NotValidated,
        "Graph must be validated before being compiled"⟩, {}, fun _ => none) ∧
    ({} : Graph).emitAsm =
      (.error ⟨.NotValidated,
        "Graph must be validated before emitting MLIR assembly"⟩, {}) :=
  C4_notValidated_guards {} .CPU false (fun _ => 0) (fun _ => none) rfl

end Fusilli
